import Mathlib

/- Verification development for the rs-wayfinding-backend repository
   (src/server.py): a FastAPI + MongoDB backend for hospital indoor
   navigation.  The document store, the pydantic models and the route
   handlers are embedded shallowly below; theorems about the embedded
   operations settle the specification's claims. -/

/-- Model of a Python `datetime` carrying `tzinfo = timezone.utc`, as produced
by `datetime.now(timezone.utc)` in `server.py`.  Only UTC-aware datetimes occur
in the program, so the timezone is not represented explicitly. -/
structure PyDatetime where
  year : Nat
  month : Nat
  day : Nat
  hour : Nat
  minute : Nat
  second : Nat
  microsecond : Nat
  deriving DecidableEq, Repr

/-- Two-digit zero-padded decimal rendering, as used by CPython
`datetime.isoformat` for month, day, hour, minute and second. -/
def pad2 (n : Nat) : List Char := [Nat.digitChar (n / 10), Nat.digitChar (n % 10)]

/-- Four-digit zero-padded decimal rendering (the year field). -/
def pad4 (n : Nat) : List Char := pad2 (n / 100) ++ pad2 (n % 100)

/-- Six-digit zero-padded decimal rendering (the microsecond field). -/
def pad6 (n : Nat) : List Char := pad2 (n / 10000) ++ pad2 (n / 100 % 100) ++ pad2 (n % 100)

/-- Model of CPython `datetime.isoformat()` on a UTC-aware datetime:
`YYYY-MM-DDTHH:MM:SS[.ffffff]+00:00`, with the fractional part omitted when
`microsecond` is zero, exactly as CPython prints it. -/
def PyDatetime.isoformat (t : PyDatetime) : String :=
  ⟨pad4 t.year ++ '-' :: pad2 t.month ++ '-' :: pad2 t.day ++ 'T' :: pad2 t.hour ++
    ':' :: pad2 t.minute ++ ':' :: pad2 t.second ++
    (if t.microsecond = 0 then [] else '.' :: pad6 t.microsecond) ++
    ('+' :: '0' :: '0' :: ':' :: '0' :: '0' :: [])⟩

/-- Numeric value of a decimal digit character; `none` for any other
character. -/
def digit? (c : Char) : Option Nat :=
  if c.isDigit then some (c.toNat - 48) else none

/-- Parse two decimal digit characters into their two-digit value. -/
def parse2 (a b : Char) : Option Nat :=
  match digit? a, digit? b with
  | some x, some y => some (10 * x + y)
  | _, _ => none

/-- Parse four decimal digit characters into their four-digit value. -/
def parse4 (a b c d : Char) : Option Nat :=
  match parse2 a b, parse2 c d with
  | some h, some l => some (100 * h + l)
  | _, _ => none

/-- Parse six decimal digit characters into their six-digit value. -/
def parse6 (a b c d e f : Char) : Option Nat :=
  match parse2 a b, parse2 c d, parse2 e f with
  | some u, some v, some w => some (10000 * u + 100 * v + w)
  | _, _, _ => none

/-- Model of CPython `datetime.fromisoformat` restricted to the shapes of
string this application ever stores, namely the output of `isoformat` on a
UTC-aware datetime (`YYYY-MM-DDTHH:MM:SS[.ffffff]+00:00`).  The basic
field-range checks CPython performs are included; `none` stands for the
`ValueError` CPython raises on a malformed string. -/
def PyDatetime.fromisoformat (s : String) : Option PyDatetime :=
  match s.data with
  | y1 :: y2 :: y3 :: y4 :: '-' :: o1 :: o2 :: '-' :: d1 :: d2 :: 'T' :: h1 :: h2 ::
      ':' :: n1 :: n2 :: ':' :: s1 :: s2 :: rest =>
    match parse4 y1 y2 y3 y4, parse2 o1 o2, parse2 d1 d2,
        parse2 h1 h2, parse2 n1 n2, parse2 s1 s2 with
    | some y, some mo, some da, some ho, some mi, some se =>
      match rest with
      | ['+', '0', '0', ':', '0', '0'] =>
        if 1 ≤ y ∧ 1 ≤ mo ∧ mo ≤ 12 ∧ 1 ≤ da ∧ da ≤ 31 ∧ ho ≤ 23 ∧ mi ≤ 59 ∧ se ≤ 59
        then some ⟨y, mo, da, ho, mi, se, 0⟩ else none
      | '.' :: u1 :: u2 :: u3 :: u4 :: u5 :: u6 ::
          '+' :: '0' :: '0' :: ':' :: '0' :: '0' :: [] =>
        match parse6 u1 u2 u3 u4 u5 u6 with
        | some us =>
          if 1 ≤ y ∧ 1 ≤ mo ∧ mo ≤ 12 ∧ 1 ≤ da ∧ da ≤ 31 ∧ ho ≤ 23 ∧ mi ≤ 59 ∧ se ≤ 59 ∧
              us ≤ 999999
          then some ⟨y, mo, da, ho, mi, se, us⟩ else none
        | none => none
      | _ => none
    | _, _, _, _, _, _ => none
  | _ => none

/-- Structural validity of a datetime, as CPython's `datetime` constructor
guarantees for every value it ever hands out.  (CPython additionally checks the
day against the month's calendar length, which no claim depends on.) -/
def PyDatetime.valid (t : PyDatetime) : Prop :=
  1 ≤ t.year ∧ t.year ≤ 9999 ∧ 1 ≤ t.month ∧ t.month ≤ 12 ∧ 1 ≤ t.day ∧ t.day ≤ 31 ∧
    t.hour ≤ 23 ∧ t.minute ≤ 59 ∧ t.second ≤ 59 ∧ t.microsecond ≤ 999999

instance (t : PyDatetime) : Decidable t.valid := by
  unfold PyDatetime.valid; infer_instance

theorem digit?_digitChar : ∀ n < 10, digit? (Nat.digitChar n) = some n := by decide

theorem parse2_pad (n : Nat) (h : n < 100) :
    parse2 (Nat.digitChar (n / 10)) (Nat.digitChar (n % 10)) = some n := by
  have h1 : n / 10 < 10 := by omega
  have h2 : n % 10 < 10 := by omega
  simp [parse2, digit?_digitChar _ h1, digit?_digitChar _ h2]
  omega

theorem parse4_pad (n : Nat) (h : n < 10000) :
    parse4 (Nat.digitChar (n / 100 / 10)) (Nat.digitChar (n / 100 % 10))
      (Nat.digitChar (n % 100 / 10)) (Nat.digitChar (n % 100 % 10)) = some n := by
  simp [parse4, parse2_pad (n / 100) (by omega), parse2_pad (n % 100) (by omega)]
  omega

theorem parse6_pad (n : Nat) (h : n < 1000000) :
    parse6 (Nat.digitChar (n / 10000 / 10)) (Nat.digitChar (n / 10000 % 10))
      (Nat.digitChar (n / 100 % 100 / 10)) (Nat.digitChar (n / 100 % 100 % 10))
      (Nat.digitChar (n % 100 / 10)) (Nat.digitChar (n % 100 % 10)) = some n := by
  simp [parse6, parse2_pad (n / 10000) (by omega), parse2_pad (n / 100 % 100) (by omega),
    parse2_pad (n % 100) (by omega)]
  omega

/-- The stored ISO-8601 text of any valid UTC datetime parses back to the very
same datetime: `fromisoformat` inverts `isoformat`. -/
theorem fromisoformat_isoformat (t : PyDatetime) (h : t.valid) :
    PyDatetime.fromisoformat t.isoformat = some t := by
  obtain ⟨hy1, hy2, hm1, hm2, hd1, hd2, hh, hmi, hs, hu⟩ := h
  by_cases hms : t.microsecond = 0
  · simp only [PyDatetime.isoformat, pad4, pad6, pad2, hms, if_pos, if_true,
      List.cons_append, List.nil_append, List.append_assoc, ite_true, if_pos rfl]
    simp only [PyDatetime.fromisoformat]
    rw [parse4_pad t.year (by omega), parse2_pad t.month (by omega),
      parse2_pad t.day (by omega), parse2_pad t.hour (by omega),
      parse2_pad t.minute (by omega), parse2_pad t.second (by omega)]
    simp only []
    rw [if_pos (by omega)]
    simp [← hms]
  · simp only [PyDatetime.isoformat, pad4, pad6, pad2, hms, if_false,
      List.cons_append, List.nil_append, List.append_assoc, ite_false]
    simp only [PyDatetime.fromisoformat]
    rw [parse4_pad t.year (by omega), parse2_pad t.month (by omega),
      parse2_pad t.day (by omega), parse2_pad t.hour (by omega),
      parse2_pad t.minute (by omega), parse6_pad t.microsecond (by omega),
      parse2_pad t.second (by omega)]
    simp only []
    rw [if_pos (by omega)]

/-- A JSON-like value as it appears in a MongoDB document handled by
`server.py`: nulls, strings, numbers, nested objects, Python `datetime`
objects (present in a dict between `fromisoformat` and response
serialization), and MongoDB object ids (the `_id` the driver adds on
insert).  Numeric values are carried opaquely as integers: the program never
computes with them, it only stores and returns them. -/
inductive Json where
  | null
  | str (s : String)
  | num (n : Int)
  | obj (fields : List (String × Json))
  | dt (t : PyDatetime)
  | oid (n : Nat)
  deriving Repr

mutual

def Json.decEq : (a b : Json) → Decidable (a = b)
  | .null, .null => isTrue rfl
  | .str s, .str t =>
    if h : s = t then isTrue (by subst h; rfl) else isFalse (fun hc => by cases hc; exact h rfl)
  | .num s, .num t =>
    if h : s = t then isTrue (by subst h; rfl) else isFalse (fun hc => by cases hc; exact h rfl)
  | .obj fs, .obj gs =>
    match Json.decEqFields fs gs with
    | isTrue h => isTrue (by subst h; rfl)
    | isFalse h => isFalse (fun hc => by cases hc; exact h rfl)
  | .dt s, .dt t =>
    if h : s = t then isTrue (by subst h; rfl) else isFalse (fun hc => by cases hc; exact h rfl)
  | .oid s, .oid t =>
    if h : s = t then isTrue (by subst h; rfl) else isFalse (fun hc => by cases hc; exact h rfl)
  | .null, .str _ => isFalse (by intro h; cases h)
  | .null, .num _ => isFalse (by intro h; cases h)
  | .null, .obj _ => isFalse (by intro h; cases h)
  | .null, .dt _ => isFalse (by intro h; cases h)
  | .null, .oid _ => isFalse (by intro h; cases h)
  | .str _, .null => isFalse (by intro h; cases h)
  | .str _, .num _ => isFalse (by intro h; cases h)
  | .str _, .obj _ => isFalse (by intro h; cases h)
  | .str _, .dt _ => isFalse (by intro h; cases h)
  | .str _, .oid _ => isFalse (by intro h; cases h)
  | .num _, .null => isFalse (by intro h; cases h)
  | .num _, .str _ => isFalse (by intro h; cases h)
  | .num _, .obj _ => isFalse (by intro h; cases h)
  | .num _, .dt _ => isFalse (by intro h; cases h)
  | .num _, .oid _ => isFalse (by intro h; cases h)
  | .obj _, .null => isFalse (by intro h; cases h)
  | .obj _, .str _ => isFalse (by intro h; cases h)
  | .obj _, .num _ => isFalse (by intro h; cases h)
  | .obj _, .dt _ => isFalse (by intro h; cases h)
  | .obj _, .oid _ => isFalse (by intro h; cases h)
  | .dt _, .null => isFalse (by intro h; cases h)
  | .dt _, .str _ => isFalse (by intro h; cases h)
  | .dt _, .num _ => isFalse (by intro h; cases h)
  | .dt _, .obj _ => isFalse (by intro h; cases h)
  | .dt _, .oid _ => isFalse (by intro h; cases h)
  | .oid _, .null => isFalse (by intro h; cases h)
  | .oid _, .str _ => isFalse (by intro h; cases h)
  | .oid _, .num _ => isFalse (by intro h; cases h)
  | .oid _, .obj _ => isFalse (by intro h; cases h)
  | .oid _, .dt _ => isFalse (by intro h; cases h)

def Json.decEqFields : (a b : List (String × Json)) → Decidable (a = b)
  | [], [] => isTrue rfl
  | [], _ :: _ => isFalse (by intro h; cases h)
  | _ :: _, [] => isFalse (by intro h; cases h)
  | (k, v) :: r, (k', v') :: r' =>
    if hk : k = k' then
      match Json.decEq v v' with
      | isTrue hv =>
        match Json.decEqFields r r' with
        | isTrue hr => isTrue (by subst hk; subst hv; subst hr; rfl)
        | isFalse hr => isFalse (fun hc => by cases hc; exact hr rfl)
      | isFalse hv => isFalse (fun hc => by cases hc; exact hv rfl)
    else isFalse (fun hc => by cases hc; exact hk rfl)

end

instance : DecidableEq Json := Json.decEq

/-- A MongoDB document / Python dict: an association list from string keys to
values, in key insertion order.  Keys are unique in every document the program
builds, and all operations below use first-binding semantics, so the list
order is exactly Python's dict order. -/
abbrev Doc := List (String × Json)

/-- Python `d.get(k)` / `d[k]`: the value of the first binding of `k`. -/
def Doc.get? : Doc → String → Option Json
  | [], _ => none
  | (k', v) :: rest, k => if k' = k then some v else Doc.get? rest k

/-- Python `d[k] = v` and MongoDB `$set` on one field: replace the value of
the first binding of `k` in place, or append a new binding. -/
def Doc.set : Doc → String → Json → Doc
  | [], k, v => [(k, v)]
  | (k', v') :: rest, k, v =>
    if k' = k then (k, v) :: rest else (k', v') :: Doc.set rest k v

/-- Remove every binding of `k` (MongoDB projection `k: 0`; Python dicts have
unique keys so at most one binding is removed in practice). -/
def Doc.erase : Doc → String → Doc
  | [], _ => []
  | (k', v) :: rest, k =>
    if k' = k then Doc.erase rest k else (k', v) :: Doc.erase rest k

/-- The keys of a document, in order. -/
def docKeys (d : Doc) : List String := d.map (fun kv => kv.1)

/-- Python `d.get(k) == s` for a string `s`: true only when the key is present
and holds exactly that string (a missing key gives `None`, which never equals
a string; a value of another type never equals a string either). -/
def Doc.getEqStr (d : Doc) (k : String) (s : String) : Bool :=
  match d.get? k with
  | some (Json.str t) => t = s
  | _ => false

/-- MongoDB `find_one({k: s})` on a collection held in insertion order:
the first document whose field `k` equals the string `s`. -/
def findOne (coll : List Doc) (k : String) (s : String) : Option Doc :=
  coll.find? (fun d => d.getEqStr k s)

/-- MongoDB `update_one({"id": s}, {"$set": upd})`: apply every binding of
`upd` to the first matching document; no match changes nothing. -/
def updateOneSet (coll : List Doc) (s : String) (upd : Doc) : List Doc :=
  match coll with
  | [] => []
  | d :: rest =>
    if d.getEqStr "id" s then (upd.foldl (fun a kv => Doc.set a kv.1 kv.2) d) :: rest
    else d :: updateOneSet rest s upd

/-- Apply a `$set` document to one document, binding by binding. -/
def Doc.setMany (d : Doc) (upd : Doc) : Doc :=
  upd.foldl (fun a kv => Doc.set a kv.1 kv.2) d

/-- MongoDB `delete_one({"id": s})`: remove the first matching document and
report `deleted_count` (1 or 0). -/
def deleteOne (coll : List Doc) (s : String) : Nat × List Doc :=
  match coll with
  | [] => (0, [])
  | d :: rest =>
    if d.getEqStr "id" s then (1, rest)
    else
      let r := deleteOne rest s
      (r.1, d :: r.2)

/-- Evaluate a fallible function over a list, failing as a whole on the first
failure — the shape of FastAPI validating each element of a
`response_model=List[...]` response, and of the conversion loop in
`get_locations`. -/
def mapOpt (f : α → Option β) : List α → Option (List β)
  | [] => some []
  | a :: rest =>
    match f a, mapOpt f rest with
    | some b, some bs => some (b :: bs)
    | _, _ => none

/-- The `Location` pydantic response/record model of `server.py` (fields in
declaration order; `model_config` has `extra="ignore"`). -/
structure Location where
  id : String
  name : String
  description : Option String
  coordinates : List (String × Json)
  icon_url : Option String
  created_at : PyDatetime
  deriving DecidableEq, Repr

/-- The `LocationCreate` pydantic request model: what a create payload
validates to. -/
structure LocationCreate where
  name : String
  description : Option String
  coordinates : List (String × Json)
  icon_url : Option String
  deriving DecidableEq, Repr

/-- The `LocationUpdate` pydantic request model: every field optional,
defaulting to `None`. -/
structure LocationUpdate where
  name : Option String
  description : Option String
  coordinates : Option (List (String × Json))
  icon_url : Option String
  deriving DecidableEq, Repr

/-- Pydantic validation of a required `str` field: only a JSON string is
accepted (pydantic v2 does not coerce numbers or nulls to `str`). -/
def expectStr : Option Json → Option String
  | some (Json.str s) => some s
  | _ => none

/-- Pydantic validation of a required `dict` field. -/
def expectObj : Option Json → Option (List (String × Json))
  | some (Json.obj m) => some m
  | _ => none

/-- Pydantic validation of a `datetime` field: accepts a Python datetime
object, and coerces an ISO-8601 string (pydantic's lax mode). -/
def expectDt : Option Json → Option PyDatetime
  | some (Json.dt t) => some t
  | some (Json.str s) => PyDatetime.fromisoformat s
  | _ => none

/-- Pydantic validation of an `Optional[str] = None` field: missing or null
validates to `None`, a string to itself, anything else is a validation
error. -/
def parseOptStr : Option Json → Option (Option String)
  | none => some none
  | some Json.null => some none
  | some (Json.str s) => some (some s)
  | some _ => none

/-- Pydantic validation of an `Optional[dict] = None` field. -/
def parseOptDict : Option Json → Option (Option (List (String × Json)))
  | none => some none
  | some Json.null => some none
  | some (Json.obj m) => some (some m)
  | some _ => none

/-- Pydantic validation of a `LocationCreate` request body.  `name` must be a
string (pydantic places no non-emptiness constraint on `str`), `coordinates`
must be a dict; `description` and `icon_url` are optional.  Unknown keys such
as a client-supplied `id` or `created_at` are ignored (pydantic's default
`extra` behaviour).  `none` is the 422 validation error FastAPI returns. -/
def LocationCreate.parse (body : Doc) : Option LocationCreate := do
  let n ← expectStr (body.get? "name")
  let de ← parseOptStr (body.get? "description")
  let m ← expectObj (body.get? "coordinates")
  let ic ← parseOptStr (body.get? "icon_url")
  pure ⟨n, de, m, ic⟩

/-- Pydantic validation of a `LocationUpdate` request body: all four fields
optional, null meaning "no value". -/
def LocationUpdate.parse (body : Doc) : Option LocationUpdate := do
  let n ← parseOptStr (body.get? "name")
  let de ← parseOptStr (body.get? "description")
  let co ← parseOptDict (body.get? "coordinates")
  let ic ← parseOptStr (body.get? "icon_url")
  pure ⟨n, de, co, ic⟩

/-- Serialize an optional string the way `model_dump` does: `None` becomes
null. -/
def optJson : Option String → Json
  | none => Json.null
  | some s => Json.str s

/-- The dict `update_location` builds:
`{k: v for k, v in location_update.model_dump().items() if v is not None}` —
the present, non-null payload fields, in model field order. -/
def LocationUpdate.updateData (u : LocationUpdate) : Doc :=
  (match u.name with
   | some s => [("name", Json.str s)]
   | none => []) ++
  (match u.description with
   | some s => [("description", Json.str s)]
   | none => []) ++
  (match u.coordinates with
   | some m => [("coordinates", Json.obj m)]
   | none => []) ++
  (match u.icon_url with
   | some s => [("icon_url", Json.str s)]
   | none => [])

/-- FastAPI's serialization of a `Location` into the JSON response body
(`model_dump` plus `jsonable_encoder`): the six schema fields in declaration
order, `created_at` as its ISO-8601 string. -/
def Location.model_dump (L : Location) : Doc :=
  [("id", Json.str L.id), ("name", Json.str L.name),
   ("description", optJson L.description), ("coordinates", Json.obj L.coordinates),
   ("icon_url", optJson L.icon_url), ("created_at", Json.str L.created_at.isoformat)]

/-- Validation of a stored document against the `Location` response model, as
FastAPI performs for `response_model=Location`.  Unknown keys are dropped
(`extra="ignore"`); a `created_at` left as an ISO string is coerced by
pydantic's lax datetime parsing.  The `id` and `created_at` defaults of the
model are never exercised on this path — every stored document carries both
fields — so a document missing them is rejected here. -/
def Location.validate (d : Doc) : Option Location := do
  let i ← expectStr (d.get? "id")
  let n ← expectStr (d.get? "name")
  let de ← parseOptStr (d.get? "description")
  let m ← expectObj (d.get? "coordinates")
  let ic ← parseOptStr (d.get? "icon_url")
  let t ← expectDt (d.get? "created_at")
  pure ⟨i, n, de, m, ic, t⟩

/-- The database state: the two MongoDB collections `server.py` touches, in
insertion order, plus the driver's object-id supply for `insert_one`. -/
structure DBState where
  locations : List Doc
  admin_settings : List Doc
  nextOid : Nat
  deriving DecidableEq, Repr

/-- The failure kinds of the API, with the HTTP status each `HTTPException`
carries. -/
inductive HError where
  | notFound
  | unauthorized
  | validation
  | internal (detail : String)
  deriving DecidableEq, Repr

/-- The status code of each failure: 404, 401, 422 and 500 respectively. -/
def HError.statusCode : HError → Nat
  | .notFound => 404
  | .unauthorized => 401
  | .validation => 422
  | .internal _ => 500

/-- The `status_code=201` of the create route's decorator. -/
def create_location_success_status : Nat := 201

/-- The conversion the read routes perform:
`if isinstance(loc.get('created_at'), str): loc['created_at'] = datetime.fromisoformat(...)`.
`none` is the uncaught `ValueError` (a 500 in FastAPI). -/
def convert_created (d : Doc) : Option Doc :=
  match d.get? "created_at" with
  | some (Json.str s) =>
    match PyDatetime.fromisoformat s with
    | some t => some (d.set "created_at" (Json.dt t))
    | none => none
  | _ => some d

/-- Projection, conversion and response validation of one stored document, as
the read paths do before returning it. -/
def processDoc (d : Doc) : Option Location :=
  match convert_created (d.erase "_id") with
  | some d2 => Location.validate d2
  | none => none

/-- The route `GET /api/locations`: fetch every document with `_id` projected
away, capped at 1000 by `to_list(1000)`, convert string timestamps, and
serialize through `response_model=List[Location]`. -/
def get_locations (st : DBState) : Except HError (List Location) :=
  match mapOpt processDoc (st.locations.take 1000) with
  | some ls => Except.ok ls
  | none => Except.error (HError.internal "response processing failed")

/-- The route `GET /api/locations/{location_id}`: `find_one` with `_id`
projected away; `if not location` (a falsy `None` or empty dict) is the 404;
then string-timestamp conversion and response validation. -/
def get_location (st : DBState) (location_id : String) : Except HError Location :=
  match (findOne st.locations "id" location_id).map (fun d => d.erase "_id") with
  | none => Except.error HError.notFound
  | some p =>
    if p.isEmpty then Except.error HError.notFound
    else
      match convert_created p with
      | none => Except.error (HError.internal "invalid isoformat string")
      | some p2 =>
        match Location.validate p2 with
        | some L => Except.ok L
        | none => Except.error (HError.internal "response validation failed")

/-- The body of `create_location` once the payload has validated: build the
`Location` with the server-generated `id` (a fresh UUID) and `created_at`
(`datetime.now(timezone.utc)`), dump it, overwrite `created_at` with its
`isoformat` string, `insert_one` it (the driver appends a fresh `_id`), and
return the `Location` object. -/
def create_location (genId : String) (now : PyDatetime) (lc : LocationCreate)
    (st : DBState) : Location × DBState :=
  let L : Location := ⟨genId, lc.name, lc.description, lc.coordinates, lc.icon_url, now⟩
  let doc : Doc :=
    [("id", Json.str L.id), ("name", Json.str L.name),
     ("description", optJson L.description), ("coordinates", Json.obj L.coordinates),
     ("icon_url", optJson L.icon_url), ("created_at", Json.str now.isoformat)]
  (L, { st with
          locations := st.locations ++ [doc ++ [("_id", Json.oid st.nextOid)]],
          nextOid := st.nextOid + 1 })

/-- The route `POST /api/locations` including request validation: a 422 on a
bad body, otherwise `create_location`.  `genId` and `now` are the fresh UUID
and the current instant the server draws. -/
def postLocation (genId : String) (now : PyDatetime) (body : Doc)
    (st : DBState) : Except HError Location × DBState :=
  match LocationCreate.parse body with
  | none => (Except.error HError.validation, st)
  | some lc =>
    let r := create_location genId now lc st
    (Except.ok r.1, r.2)

/-- The route `PUT /api/locations/{location_id}`: body validation (422), the
`find_one` existence check (404 on falsy), `$set` of the present non-null
fields — skipped entirely when that dict is empty — then re-fetch, convert
and validate the response. -/
def update_location (st : DBState) (location_id : String) (body : Doc) :
    Except HError Location × DBState :=
  match LocationUpdate.parse body with
  | none => (Except.error HError.validation, st)
  | some u =>
    match (findOne st.locations "id" location_id).map (fun d => d.erase "_id") with
    | none => (Except.error HError.notFound, st)
    | some e =>
      if e.isEmpty then (Except.error HError.notFound, st)
      else
        let upd := u.updateData
        let st' :=
          if upd.isEmpty then st
          else { st with locations := updateOneSet st.locations location_id upd }
        match (findOne st'.locations "id" location_id).map (fun d => d.erase "_id") with
        | none => (Except.error (HError.internal "updated document missing"), st')
        | some d2 =>
          match convert_created d2 with
          | none => (Except.error (HError.internal "invalid isoformat string"), st')
          | some d3 =>
            match Location.validate d3 with
            | some L => (Except.ok L, st')
            | none => (Except.error (HError.internal "response validation failed"), st')

/-- The route `DELETE /api/locations/{location_id}`: `delete_one`, 404 when
`deleted_count == 0`, otherwise the success acknowledgment. -/
def delete_location (st : DBState) (location_id : String) :
    Except HError (Bool × String) × DBState :=
  let r := deleteOne st.locations location_id
  if r.1 = 0 then (Except.error HError.notFound, { st with locations := r.2 })
  else (Except.ok (true, "Location deleted"), { st with locations := r.2 })

/-- The route `POST /api/admin/verify-pin`: `find_one({"_id": "admin"})`, then
`if settings and settings.get("pin") == data.pin` — both a missing record and
a mismatching pin fall through to the same 401. -/
def verify_admin_pin (st : DBState) (pin : String) : Except HError (Bool × String) :=
  match findOne st.admin_settings "_id" "admin" with
  | none => Except.error HError.unauthorized
  | some s =>
    if s.isEmpty then Except.error HError.unauthorized
    else if s.getEqStr "pin" pin then Except.ok (true, "PIN verified")
    else Except.error HError.unauthorized

/-- The default admin settings document the startup hook inserts. -/
def adminDefaultDoc : Doc := [("_id", Json.str "admin"), ("pin", Json.str "1234")]

/-- The startup hook `initialize_admin` of `server.py`: `if not existing`
(falsy `None`; the matched document always contains `_id` so it is never an
empty dict) insert the default record with PIN "1234", otherwise leave the
store untouched. -/
def init_admin (st : DBState) : DBState :=
  match findOne st.admin_settings "_id" "admin" with
  | some s =>
    if s.isEmpty then { st with admin_settings := st.admin_settings ++ [adminDefaultDoc] }
    else st
  | none => { st with admin_settings := st.admin_settings ++ [adminDefaultDoc] }

/-- The uploads directory: stored blobs by generated filename, in write
order.  Payload bytes are carried as lists of numbers. -/
structure FS where
  files : List (String × List Nat)
  deriving DecidableEq, Repr

/-- The last path component, as `pathlib.PurePosixPath(...).name` computes it
(trailing separators stripped first). -/
def pathNameOf (s : String) : List Char :=
  ((s.data.reverse.dropWhile (fun c => c = '/')).takeWhile (fun c => c ≠ '/')).reverse

/-- The index of the last '.' in a name, if any (Python `str.rfind`). -/
def lastDotIdx (n : List Char) : Option Nat :=
  ((n.enum.filter (fun p => p.2 = '.')).getLast?).map (fun p => p.1)

/-- `pathlib.Path(filename).suffix`: the extension of the last path
component, dot included; empty when the name has no dot, starts with its only
dot, or ends in its last dot. -/
def pathSuffix (s : String) : String :=
  let n := pathNameOf s
  match lastDotIdx n with
  | none => ""
  | some i => if 0 < i ∧ i < n.length - 1 then ⟨n.drop i⟩ else ""

/-- The route `POST /api/upload`: derive the extension from the original
filename, build the fresh unique name from the server-drawn UUID, write the
whole payload, and answer with the public retrieval path.  `writeErr` is the
environment's verdict on the `aiofiles` write: `some e` is an I/O failure
with message `e`, which the `except` clause turns into a 500 whose detail is
`str(e)` verbatim. -/
def upload_file (genUuid : String) (filename : String) (content : List Nat)
    (writeErr : Option String) (fs : FS) : Except HError (Bool × String) × FS :=
  let unique := genUuid ++ pathSuffix filename
  match writeErr with
  | some e => (Except.error (HError.internal e), fs)
  | none =>
    (Except.ok (true, "/api/uploads/" ++ unique), ⟨fs.files ++ [(unique, content)]⟩)

/-- Reading back a stored upload by generated name. -/
def FS.read (fs : FS) (name : String) : Option (List Nat) :=
  (fs.files.find? (fun p => p.1 = name)).map (fun p => p.2)

theorem Doc.getEqStr_true_iff (d : Doc) (k s : String) :
    d.getEqStr k s = true ↔ d.get? k = some (Json.str s) := by
  unfold Doc.getEqStr
  cases h : d.get? k with
  | none => simp
  | some v => cases v <;> simp

theorem Doc.isEmpty_false_of_get? (d : Doc) (k : String) (v : Json)
    (h : d.get? k = some v) : d.isEmpty = false := by
  cases d with
  | nil => simp [Doc.get?] at h
  | cons a r => rfl

theorem Doc.get?_set_self (d : Doc) (k : String) (v : Json) :
    (d.set k v).get? k = some v := by
  induction d with
  | nil => simp [Doc.set, Doc.get?]
  | cons a r ih =>
    by_cases h : a.1 = k
    · simp [Doc.set, h, Doc.get?]
    · simp [Doc.set, h, Doc.get?, ih]

theorem Doc.get?_set_ne (d : Doc) (k k' : String) (v : Json) (h : k' ≠ k) :
    (d.set k v).get? k' = d.get? k' := by
  induction d with
  | nil => simp [Doc.set, Doc.get?, h.symm]
  | cons a r ih =>
    by_cases ha : a.1 = k
    · simp [Doc.set, ha, Doc.get?, h.symm]
    · simp [Doc.set, ha, Doc.get?, ih]

theorem Doc.get?_erase_ne (d : Doc) (k k' : String) (h : k' ≠ k) :
    (d.erase k).get? k' = d.get? k' := by
  induction d with
  | nil => simp [Doc.erase]
  | cons a r ih =>
    by_cases ha : a.1 = k
    · simp [Doc.erase, ha, Doc.get?, h.symm, ih]
    · by_cases hk' : a.1 = k'
      · simp [Doc.erase, ha, Doc.get?, hk', h]
      · simp [Doc.erase, ha, Doc.get?, hk', ih]

theorem Doc.get?_erase_self (d : Doc) (k : String) : (d.erase k).get? k = none := by
  induction d with
  | nil => simp [Doc.erase, Doc.get?]
  | cons a r ih =>
    by_cases ha : a.1 = k
    · simp [Doc.erase, ha, ih]
    · simp [Doc.erase, ha, Doc.get?, ih]

theorem Doc.getEqStr_erase_ne (d : Doc) (k k' s : String) (h : k' ≠ k) :
    (d.erase k).getEqStr k' s = d.getEqStr k' s := by
  unfold Doc.getEqStr
  rw [Doc.get?_erase_ne d k k' h]

theorem Doc.setMany_nil (d : Doc) : d.setMany [] = d := rfl

theorem Doc.setMany_cons (d : Doc) (k : String) (v : Json) (rest : Doc) :
    d.setMany ((k, v) :: rest) = (d.set k v).setMany rest := rfl

theorem Doc.setMany_append (d : Doc) (a b : Doc) :
    d.setMany (a ++ b) = (d.setMany a).setMany b := by
  unfold Doc.setMany
  apply List.foldl_append

theorem Doc.get?_setMany_not_mem (d : Doc) (upd : Doc) (k : String)
    (h : k ∉ docKeys upd) : (d.setMany upd).get? k = d.get? k := by
  induction upd generalizing d with
  | nil => rfl
  | cons a rest ih =>
    rw [show a = (a.1, a.2) from rfl, Doc.setMany_cons]
    have h1 : k ≠ a.1 := fun hc => h (by simp [docKeys, hc])
    have h2 : k ∉ docKeys rest := fun hc => h (by simp [docKeys] at hc ⊢; exact Or.inr hc)
    rw [ih _ h2, Doc.get?_set_ne _ _ _ _ h1]

theorem findOne_append_of_none (pre rest : List Doc) (k s : String)
    (h : ∀ d ∈ pre, d.getEqStr k s = false) :
    findOne (pre ++ rest) k s = findOne rest k s := by
  induction pre with
  | nil => rfl
  | cons d pre ih =>
    have hd := h d (by simp)
    simp only [findOne, List.cons_append, List.find?, hd]
    exact ih (fun d' hd' => h d' (by simp [hd']))

theorem findOne_cons_self (d : Doc) (rest : List Doc) (k s : String)
    (h : d.getEqStr k s = true) : findOne (d :: rest) k s = some d := by
  simp only [findOne, List.find?, h]

theorem findOne_eq_none (coll : List Doc) (k s : String)
    (h : ∀ d ∈ coll, d.getEqStr k s = false) : findOne coll k s = none := by
  induction coll with
  | nil => rfl
  | cons d rest ih =>
    simp only [findOne, List.find?, h d (by simp)]
    exact ih (fun d' hd' => h d' (by simp [hd']))

theorem updateOneSet_split (pre : List Doc) (d : Doc) (post : List Doc) (s : String)
    (upd : Doc) (hpre : ∀ d' ∈ pre, d'.getEqStr "id" s = false)
    (hd : d.getEqStr "id" s = true) :
    updateOneSet (pre ++ d :: post) s upd = pre ++ (d.setMany upd) :: post := by
  induction pre with
  | nil => simp [updateOneSet, hd, Doc.setMany]
  | cons a pre ih =>
    have ha := hpre a (by simp)
    simp only [List.cons_append, updateOneSet, ha, Bool.false_eq_true, if_false,
      List.cons.injEq, true_and]
    exact ih (fun d' hd' => hpre d' (by simp [hd']))

theorem deleteOne_of_none (coll : List Doc) (s : String)
    (h : ∀ d ∈ coll, d.getEqStr "id" s = false) : deleteOne coll s = (0, coll) := by
  induction coll with
  | nil => rfl
  | cons d rest ih =>
    simp only [deleteOne, h d (by simp), Bool.false_eq_true, if_false]
    rw [ih (fun d' hd' => h d' (by simp [hd']))]

theorem deleteOne_split (pre : List Doc) (d : Doc) (post : List Doc) (s : String)
    (hpre : ∀ d' ∈ pre, d'.getEqStr "id" s = false)
    (hd : d.getEqStr "id" s = true) :
    deleteOne (pre ++ d :: post) s = (1, pre ++ post) := by
  induction pre with
  | nil => simp [deleteOne, hd]
  | cons a pre ih =>
    have ha := hpre a (by simp)
    simp only [List.cons_append, deleteOne, ha, Bool.false_eq_true, if_false]
    simp [List.append_eq, ih (fun d' hd' => hpre d' (by simp [hd']))]

theorem mapOpt_length (f : α → Option β) (l : List α) (out : List β)
    (h : mapOpt f l = some out) : out.length = l.length := by
  induction l generalizing out with
  | nil => simp [mapOpt] at h; simp [← h]
  | cons a rest ih =>
    simp only [mapOpt] at h
    cases hf : f a with
    | none => rw [hf] at h; simp at h
    | some b =>
      rw [hf] at h
      cases hr : mapOpt f rest with
      | none => rw [hr] at h; simp at h
      | some bs =>
        rw [hr] at h
        simp at h
        simp [← h, ih bs hr]

theorem mapOpt_get (f : α → Option β) (l : List α) (out : List β)
    (h : mapOpt f l = some out) (i : Nat) (hi : i < out.length) (hl : i < l.length) :
    f (l.get ⟨i, hl⟩) = some (out.get ⟨i, hi⟩) := by
  induction l generalizing out i with
  | nil => simp at hl
  | cons a rest ih =>
    simp only [mapOpt] at h
    cases hf : f a with
    | none => rw [hf] at h; simp at h
    | some b =>
      rw [hf] at h
      cases hr : mapOpt f rest with
      | none => rw [hr] at h; simp at h
      | some bs =>
        rw [hr] at h
        simp at h
        subst h
        cases i with
        | zero => simpa using hf
        | succ j => exact ih bs hr j (by simpa using hi) (by simpa using hl)

theorem expectStr_eq_some (o : Option Json) (s : String) :
    expectStr o = some s ↔ o = some (Json.str s) := by
  cases o with
  | none => simp [expectStr]
  | some v => cases v <;> simp [expectStr]

theorem expectObj_eq_some (o : Option Json) (m : List (String × Json)) :
    expectObj o = some m ↔ o = some (Json.obj m) := by
  cases o with
  | none => simp [expectObj]
  | some v => cases v <;> simp [expectObj]

theorem expectDt_eq_some (o : Option Json) (t : PyDatetime) :
    expectDt o = some t ↔
      o = some (Json.dt t) ∨
      ∃ s, o = some (Json.str s) ∧ PyDatetime.fromisoformat s = some t := by
  cases o with
  | none => simp [expectDt]
  | some v => cases v <;> simp [expectDt]

theorem Location.validate_eq_some_iff (d : Doc) (L : Location) :
    Location.validate d = some L ↔
      expectStr (d.get? "id") = some L.id ∧
      expectStr (d.get? "name") = some L.name ∧
      parseOptStr (d.get? "description") = some L.description ∧
      expectObj (d.get? "coordinates") = some L.coordinates ∧
      parseOptStr (d.get? "icon_url") = some L.icon_url ∧
      expectDt (d.get? "created_at") = some L.created_at := by
  simp only [Location.validate, bind, Option.bind_eq_some, Option.pure_def,
    Option.some.injEq]
  constructor
  · rintro ⟨i, hi, n, hn, de, hde, m, hm, ic, hic, t, ht, hL⟩
    subst hL
    exact ⟨hi, hn, hde, hm, hic, ht⟩
  · rintro ⟨hi, hn, hde, hm, hic, ht⟩
    exact ⟨L.id, hi, L.name, hn, L.description, hde, L.coordinates, hm,
      L.icon_url, hic, L.created_at, ht, rfl⟩

theorem LocationCreate.parseCreate_eq_some_iff (body : Doc) (lc : LocationCreate) :
    LocationCreate.parse body = some lc ↔
      expectStr (body.get? "name") = some lc.name ∧
      parseOptStr (body.get? "description") = some lc.description ∧
      expectObj (body.get? "coordinates") = some lc.coordinates ∧
      parseOptStr (body.get? "icon_url") = some lc.icon_url := by
  simp only [LocationCreate.parse, bind, Option.bind_eq_some, Option.pure_def,
    Option.some.injEq]
  constructor
  · rintro ⟨n, hn, de, hde, m, hm, ic, hic, hlc⟩
    subst hlc
    exact ⟨hn, hde, hm, hic⟩
  · rintro ⟨hn, hde, hm, hic⟩
    exact ⟨lc.name, hn, lc.description, hde, lc.coordinates, hm, lc.icon_url, hic, rfl⟩

theorem LocationUpdate.parseUpdate_eq_some_iff (body : Doc) (u : LocationUpdate) :
    LocationUpdate.parse body = some u ↔
      parseOptStr (body.get? "name") = some u.name ∧
      parseOptStr (body.get? "description") = some u.description ∧
      parseOptDict (body.get? "coordinates") = some u.coordinates ∧
      parseOptStr (body.get? "icon_url") = some u.icon_url := by
  simp only [LocationUpdate.parse, bind, Option.bind_eq_some, Option.pure_def,
    Option.some.injEq]
  constructor
  · rintro ⟨n, hn, de, hde, co, hco, ic, hic, hu⟩
    subst hu
    exact ⟨hn, hde, hco, hic⟩
  · rintro ⟨hn, hde, hco, hic⟩
    exact ⟨u.name, hn, u.description, hde, u.coordinates, hco, u.icon_url, hic, rfl⟩

/-- One optional entry of the `$set` document: present fields contribute one
binding, absent ones none. -/
def optPair (k : String) : Option Json → Doc
  | some v => [(k, v)]
  | none => []

theorem updateData_eq (u : LocationUpdate) :
    u.updateData =
      optPair "name" (u.name.map Json.str) ++
      optPair "description" (u.description.map Json.str) ++
      optPair "coordinates" (u.coordinates.map Json.obj) ++
      optPair "icon_url" (u.icon_url.map Json.str) := by
  rcases u with ⟨n, de, co, ic⟩
  cases n <;> cases de <;> cases co <;> cases ic <;> rfl

theorem get?_setMany_optPair_ne (d : Doc) (k k' : String) (o : Option Json)
    (h : k' ≠ k) : (d.setMany (optPair k o)).get? k' = d.get? k' := by
  cases o with
  | none => rfl
  | some v =>
    simp only [optPair, Doc.setMany_cons, Doc.setMany_nil]
    exact Doc.get?_set_ne _ _ _ _ h

theorem get?_setMany_optPair_self (d : Doc) (k : String) (o : Option Json) :
    (d.setMany (optPair k o)).get? k =
      match o with
      | some v => some v
      | none => d.get? k := by
  cases o with
  | none => rfl
  | some v =>
    simp only [optPair, Doc.setMany_cons, Doc.setMany_nil]
    exact Doc.get?_set_self _ _ _

theorem setMany_updateData_name (d : Doc) (u : LocationUpdate) :
    (d.setMany u.updateData).get? "name" =
      match u.name with
      | some s => some (Json.str s)
      | none => d.get? "name" := by
  rw [updateData_eq, Doc.setMany_append, Doc.setMany_append, Doc.setMany_append,
    get?_setMany_optPair_ne _ _ _ _ (by decide),
    get?_setMany_optPair_ne _ _ _ _ (by decide),
    get?_setMany_optPair_ne _ _ _ _ (by decide),
    get?_setMany_optPair_self]
  cases u.name <;> rfl

theorem setMany_updateData_desc (d : Doc) (u : LocationUpdate) :
    (d.setMany u.updateData).get? "description" =
      match u.description with
      | some s => some (Json.str s)
      | none => d.get? "description" := by
  rw [updateData_eq, Doc.setMany_append, Doc.setMany_append, Doc.setMany_append,
    get?_setMany_optPair_ne _ _ _ _ (by decide),
    get?_setMany_optPair_ne _ _ _ _ (by decide),
    get?_setMany_optPair_self]
  cases u.description with
  | some s => rfl
  | none => exact get?_setMany_optPair_ne _ _ _ _ (by decide)

theorem setMany_updateData_coords (d : Doc) (u : LocationUpdate) :
    (d.setMany u.updateData).get? "coordinates" =
      match u.coordinates with
      | some m => some (Json.obj m)
      | none => d.get? "coordinates" := by
  rw [updateData_eq, Doc.setMany_append, Doc.setMany_append, Doc.setMany_append,
    get?_setMany_optPair_ne _ _ _ _ (by decide),
    get?_setMany_optPair_self]
  cases u.coordinates with
  | some m => rfl
  | none =>
    rw [get?_setMany_optPair_ne _ _ _ _ (by decide),
      get?_setMany_optPair_ne _ _ _ _ (by decide)]
    rfl

theorem setMany_updateData_icon (d : Doc) (u : LocationUpdate) :
    (d.setMany u.updateData).get? "icon_url" =
      match u.icon_url with
      | some s => some (Json.str s)
      | none => d.get? "icon_url" := by
  rw [updateData_eq, Doc.setMany_append, Doc.setMany_append, Doc.setMany_append,
    get?_setMany_optPair_self]
  cases u.icon_url with
  | some s => rfl
  | none =>
    rw [get?_setMany_optPair_ne _ _ _ _ (by decide),
      get?_setMany_optPair_ne _ _ _ _ (by decide),
      get?_setMany_optPair_ne _ _ _ _ (by decide)]
    rfl

theorem setMany_updateData_other (d : Doc) (u : LocationUpdate) (k : String)
    (h1 : k ≠ "name") (h2 : k ≠ "description") (h3 : k ≠ "coordinates")
    (h4 : k ≠ "icon_url") : (d.setMany u.updateData).get? k = d.get? k := by
  rw [updateData_eq, Doc.setMany_append, Doc.setMany_append, Doc.setMany_append,
    get?_setMany_optPair_ne _ _ _ _ h4, get?_setMany_optPair_ne _ _ _ _ h3,
    get?_setMany_optPair_ne _ _ _ _ h2, get?_setMany_optPair_ne _ _ _ _ h1]

theorem findOne_some_getEqStr (coll : List Doc) (k s : String) (d : Doc)
    (h : findOne coll k s = some d) : d.getEqStr k s = true := by
  have h' : coll.find? (fun d => d.getEqStr k s) = some d := h
  simpa using List.find?_some h'

theorem findOne_none_forall (coll : List Doc) (k s : String)
    (h : findOne coll k s = none) : ∀ d ∈ coll, d.getEqStr k s = false := by
  intro d hd
  have hx := List.find?_eq_none.mp h d hd
  simpa using hx

/-- C4: Verify PIN succeeds if and only if an AdminSettings record exists and
its stored pin is exactly string-equal to the candidate (case-sensitive, no
normalization); in every other case — wrong pin, empty pin, or no admin
record — it fails with the same Unauthorized (401) failure, observably
identical for a mismatch and a missing record. -/
theorem c4_verify_pin_exact_match (st : DBState) (pin : String) :
    (verify_admin_pin st pin = Except.ok (true, "PIN verified") ↔
      ∃ s, findOne st.admin_settings "_id" "admin" = some s ∧
        Doc.get? s "pin" = some (Json.str pin)) ∧
    (verify_admin_pin st pin = Except.ok (true, "PIN verified") ∨
      verify_admin_pin st pin = Except.error HError.unauthorized) ∧
    HError.statusCode HError.unauthorized = 401 := by
  refine ⟨⟨?_, ?_⟩, ?_, rfl⟩
  · intro hok
    unfold verify_admin_pin at hok
    cases h : findOne st.admin_settings "_id" "admin" with
    | none => rw [h] at hok; exact absurd hok (by simp)
    | some s =>
      rw [h] at hok
      by_cases he : s.isEmpty <;> simp [he] at hok
      by_cases hp : s.getEqStr "pin" pin <;> simp [hp] at hok
      exact ⟨s, rfl, (Doc.getEqStr_true_iff s "pin" pin).mp hp⟩
  · rintro ⟨s, hs, hpin⟩
    have he : s.isEmpty = false := Doc.isEmpty_false_of_get? s _ _ hpin
    have hp : s.getEqStr "pin" pin = true := (Doc.getEqStr_true_iff s "pin" pin).mpr hpin
    unfold verify_admin_pin
    rw [hs]
    simp [he, hp]
  · unfold verify_admin_pin
    cases h : findOne st.admin_settings "_id" "admin" with
    | none => exact Or.inr rfl
    | some s =>
      by_cases he : s.isEmpty
      · simp [he]
      · by_cases hp : s.getEqStr "pin" pin
        · simp [he, hp]
        · simp [he, hp]

/-- The invariant "at most one admin settings record exists, and whatever is
in the admin collection is the record addressed by the fixed key `admin`". -/
def AdminInv (st : DBState) : Prop :=
  st.admin_settings.length ≤ 1 ∧
    ∀ d ∈ st.admin_settings, Doc.get? d "_id" = some (Json.str "admin")

instance (st : DBState) : Decidable (AdminInv st) := by
  unfold AdminInv; infer_instance

/-- C7: admin initialization is idempotent — it creates the singleton
AdminSettings record with default pin "1234" only when no record exists,
leaves an existing record completely untouched, and preserves the at-most-one
invariant; every access goes through the fixed key "admin". -/
theorem c7_init_admin_idempotent (st : DBState) :
    (findOne st.admin_settings "_id" "admin" = none →
      init_admin st = { st with admin_settings := st.admin_settings ++ [adminDefaultDoc] } ∧
      Doc.get? adminDefaultDoc "pin" = some (Json.str "1234") ∧
      Doc.get? adminDefaultDoc "_id" = some (Json.str "admin")) ∧
    (∀ s, findOne st.admin_settings "_id" "admin" = some s → init_admin st = st) ∧
    init_admin (init_admin st) = init_admin st ∧
    (AdminInv st → AdminInv (init_admin st)) := by
  have hb : ∀ s, findOne st.admin_settings "_id" "admin" = some s → init_admin st = st := by
    intro s hs
    have ht := findOne_some_getEqStr _ _ _ _ hs
    have hge := (Doc.getEqStr_true_iff _ _ _).mp ht
    have he : s.isEmpty = false := Doc.isEmpty_false_of_get? _ _ _ hge
    simp [init_admin, hs, he]
  have ha : findOne st.admin_settings "_id" "admin" = none →
      init_admin st = { st with admin_settings := st.admin_settings ++ [adminDefaultDoc] } := by
    intro h
    simp [init_admin, h]
  refine ⟨fun h => ⟨ha h, rfl, rfl⟩, hb, ?_, ?_⟩
  · cases h : findOne st.admin_settings "_id" "admin" with
    | some s => rw [hb s h]; exact hb s h
    | none =>
      rw [ha h]
      have hall := findOne_none_forall _ _ _ h
      have hfind : findOne (st.admin_settings ++ [adminDefaultDoc]) "_id" "admin" =
          some adminDefaultDoc := by
        rw [findOne_append_of_none _ _ _ _ hall]
        exact findOne_cons_self _ _ _ _ (by decide)
      simp [init_admin, hfind]
      decide
  · intro hinv
    cases h : findOne st.admin_settings "_id" "admin" with
    | some s => rw [hb s h]; exact hinv
    | none =>
      rw [ha h]
      obtain ⟨hlen, hall⟩ := hinv
      constructor
      · cases hc : st.admin_settings with
        | nil => simp [hc]
        | cons d rest =>
          exfalso
          have hd := hall d (by rw [hc]; simp)
          have ht : d.getEqStr "_id" "admin" = true := (Doc.getEqStr_true_iff _ _ _).mpr hd
          have hf := findOne_none_forall _ _ _ h d (by rw [hc]; simp)
          rw [ht] at hf
          exact absurd hf (by simp)
      · intro d hd
        rcases List.mem_append.mp hd with h1 | h2
        · exact hall d h1
        · have : d = adminDefaultDoc := by simpa using h2
          subst this
          rfl

theorem c7_init_admin_idempotent_witness :
    init_admin ⟨[], [adminDefaultDoc], 0⟩ = ⟨[], [adminDefaultDoc], 0⟩ ∧
    AdminInv (init_admin ⟨[], [], 0⟩) :=
  ⟨(c7_init_admin_idempotent ⟨[], [adminDefaultDoc], 0⟩).2.1 adminDefaultDoc (by decide),
   (c7_init_admin_idempotent ⟨[], [], 0⟩).2.2.2 (by decide)⟩

theorem lastDotIdx_eq_none (n : List Char) (h : '.' ∉ n) : lastDotIdx n = none := by
  unfold lastDotIdx
  have hf : n.enum.filter (fun p => decide (p.2 = '.')) = [] := by
    rw [List.filter_eq_nil_iff]
    rintro ⟨i, c⟩ hm
    have hc : c ∈ n := List.snd_mem_of_mem_enum hm
    simp only [decide_eq_true_eq]
    intro hcd
    exact h (hcd ▸ hc)
  rw [hf]
  rfl

theorem FS.read_append_fresh (files : List (String × List Nat)) (u : String)
    (c : List Nat) (h : ∀ p ∈ files, p.1 ≠ u) :
    FS.read ⟨files ++ [(u, c)]⟩ u = some c := by
  unfold FS.read
  induction files with
  | nil => simp [List.find?]
  | cons a rest ih =>
    have ha : (decide (a.1 = u)) = false := by
      simpa using h a (by simp)
    simp only [List.cons_append, List.find?, ha]
    exact ih (fun p hp => h p (by simp [hp]))

/-- C8: Store upload derives the extension from the original filename (empty
if it has none), writes the full payload under the freshly generated unique
name (UUID plus extension) and answers with the retrieval path
`/api/uploads/<generated-name>`; a failed write raises InternalError (500)
whose detail is the underlying error message verbatim. -/
theorem c8_upload_relay (genUuid filename : String) (content : List Nat) (fs : FS) :
    (upload_file genUuid filename content none fs =
      (Except.ok (true, "/api/uploads/" ++ (genUuid ++ pathSuffix filename)),
        ⟨fs.files ++ [(genUuid ++ pathSuffix filename, content)]⟩)) ∧
    (∀ e, upload_file genUuid filename content (some e) fs =
      (Except.error (HError.internal e), fs) ∧
      HError.statusCode (HError.internal e) = 500) ∧
    ('.' ∉ pathNameOf filename → pathSuffix filename = "") ∧
    ((∀ p ∈ fs.files, p.1 ≠ genUuid ++ pathSuffix filename) →
      FS.read (upload_file genUuid filename content none fs).2
        (genUuid ++ pathSuffix filename) = some content) := by
  refine ⟨rfl, fun e => ⟨rfl, rfl⟩, ?_, ?_⟩
  · intro h
    simp only [pathSuffix, lastDotIdx_eq_none _ h]
  · intro h
    exact FS.read_append_fresh fs.files _ content h

theorem c8_upload_relay_witness :
    pathSuffix "README" = "" ∧
    FS.read (upload_file "u9" "icon.png" [7, 8] none ⟨[("old.png", [1])]⟩).2
      ("u9" ++ pathSuffix "icon.png") = some [7, 8] :=
  ⟨(c8_upload_relay "x" "README" [] ⟨[]⟩).2.2.1 (by decide),
   (c8_upload_relay "u9" "icon.png" [7, 8] ⟨[("old.png", [1])]⟩).2.2.2 (by decide)⟩

/-- A concrete instant used by the witnesses. -/
def dtEx : PyDatetime := ⟨2024, 5, 6, 7, 8, 9, 10⟩

/-- A concrete stored location document used by the witnesses. -/
def docEx : Doc :=
  [("id", Json.str "L1"), ("name", Json.str "Lobby"), ("description", Json.null),
   ("coordinates", Json.obj [("x", Json.num 1), ("y", Json.num 0), ("z", Json.num 2)]),
   ("icon_url", Json.null), ("created_at", Json.str dtEx.isoformat),
   ("_id", Json.oid 0)]

/-- The location record `docEx` denotes once read back. -/
def locEx : Location :=
  ⟨"L1", "Lobby", none, [("x", Json.num 1), ("y", Json.num 0), ("z", Json.num 2)],
   none, dtEx⟩

/-- C5: for every id not present in the store, Get, Update (with a
well-formed payload) and Delete each fail with NotFound (404); deleting an
existing, uniquely-stored id succeeds, after which Get yields 404 and a
second Delete yields 404 as well. -/
theorem c5_not_found_404 (st : DBState) (location_id : String) (body : Doc) :
    ((∀ d ∈ st.locations, d.getEqStr "id" location_id = false) →
      get_location st location_id = Except.error HError.notFound ∧
      ((∃ u, LocationUpdate.parse body = some u) →
        update_location st location_id body = (Except.error HError.notFound, st)) ∧
      delete_location st location_id = (Except.error HError.notFound, st)) ∧
    (∀ pre d post, st.locations = pre ++ d :: post →
      (∀ d' ∈ pre, d'.getEqStr "id" location_id = false) →
      (∀ d' ∈ post, d'.getEqStr "id" location_id = false) →
      d.getEqStr "id" location_id = true →
      delete_location st location_id =
        (Except.ok (true, "Location deleted"), { st with locations := pre ++ post }) ∧
      get_location { st with locations := pre ++ post } location_id =
        Except.error HError.notFound ∧
      delete_location { st with locations := pre ++ post } location_id =
        (Except.error HError.notFound, { st with locations := pre ++ post })) ∧
    HError.statusCode HError.notFound = 404 := by
  have hget : ∀ st' : DBState, (∀ d ∈ st'.locations, d.getEqStr "id" location_id = false) →
      get_location st' location_id = Except.error HError.notFound := by
    intro st' h
    unfold get_location
    rw [findOne_eq_none _ _ _ h]
    rfl
  have hdel : ∀ st' : DBState, (∀ d ∈ st'.locations, d.getEqStr "id" location_id = false) →
      delete_location st' location_id = (Except.error HError.notFound, st') := by
    intro st' h
    unfold delete_location
    rw [deleteOne_of_none _ _ h]
    rfl
  have hupd : ∀ st' : DBState, (∀ d ∈ st'.locations, d.getEqStr "id" location_id = false) →
      (∃ u, LocationUpdate.parse body = some u) →
      update_location st' location_id body = (Except.error HError.notFound, st') := by
    rintro st' h ⟨u, hu⟩
    unfold update_location
    rw [hu, findOne_eq_none _ _ _ h]
    rfl
  refine ⟨fun h => ⟨hget st h, hupd st h, hdel st h⟩, ?_, rfl⟩
  intro pre d post hsplit hpre hpost hd
  have habs : ∀ d' ∈ pre ++ post, d'.getEqStr "id" location_id = false := by
    intro d' hd'
    rcases List.mem_append.mp hd' with h1 | h2
    · exact hpre d' h1
    · exact hpost d' h2
  have hdel1 : delete_location st location_id =
      (Except.ok (true, "Location deleted"), { st with locations := pre ++ post }) := by
    unfold delete_location
    rw [hsplit, deleteOne_split pre d post _ hpre hd]
    rfl
  exact ⟨hdel1, hget { st with locations := pre ++ post } habs,
    hdel { st with locations := pre ++ post } habs⟩

theorem c5_not_found_404_witness :
    update_location ⟨[docEx], [], 1⟩ "nope" [("name", Json.str "X")] =
      (Except.error HError.notFound, ⟨[docEx], [], 1⟩) ∧
    (delete_location ⟨[docEx], [], 1⟩ "L1" =
      (Except.ok (true, "Location deleted"), ⟨([] : List Doc) ++ [], [], 1⟩) ∧
      get_location (⟨([] : List Doc) ++ [], [], 1⟩ : DBState) "L1" =
        Except.error HError.notFound ∧
      delete_location (⟨([] : List Doc) ++ [], [], 1⟩ : DBState) "L1" =
        (Except.error HError.notFound, ⟨([] : List Doc) ++ [], [], 1⟩)) :=
  ⟨(((c5_not_found_404 ⟨[docEx], [], 1⟩ "nope" [("name", Json.str "X")]).1
      (by decide)).2.1) ⟨⟨some "X", none, none, none⟩, by decide⟩,
   (c5_not_found_404 ⟨[docEx], [], 1⟩ "L1" []).2.1 [] docEx [] rfl
     (by decide) (by decide) (by decide)⟩

theorem processDoc_created_str (d : Doc) (L : Location) (s : String) (t : PyDatetime)
    (hd : Doc.get? d "created_at" = some (Json.str s))
    (ht : PyDatetime.fromisoformat s = some t)
    (hp : processDoc d = some L) : L.created_at = t := by
  have hc : convert_created (d.erase "_id") =
      some ((d.erase "_id").set "created_at" (Json.dt t)) := by
    unfold convert_created
    rw [Doc.get?_erase_ne d "_id" "created_at" (by decide), hd]
    simp [ht]
  unfold processDoc at hp
  rw [hc] at hp
  simp only [] at hp
  have hv := (Location.validate_eq_some_iff _ _).mp hp
  have hca := hv.2.2.2.2.2
  rw [Doc.get?_set_self] at hca
  simp [expectDt] at hca
  exact hca.symm

/-- C9: List returns all stored records up to a hard cap of 1000 per call,
converts any `created_at` stored as a string into a timestamp before
returning, and never fails on an empty store. -/
theorem c9_list_locations (st : DBState) :
    (st.locations = [] → get_locations st = Except.ok []) ∧
    (∀ out, get_locations st = Except.ok out →
      out.length = min 1000 st.locations.length ∧ out.length ≤ 1000) ∧
    (∀ out, get_locations st = Except.ok out →
      ∀ i (hi : i < out.length) (hl : i < (st.locations.take 1000).length)
        (s : String) (t : PyDatetime),
        Doc.get? ((st.locations.take 1000).get ⟨i, hl⟩) "created_at" =
          some (Json.str s) →
        PyDatetime.fromisoformat s = some t →
        (out.get ⟨i, hi⟩).created_at = t) := by
  refine ⟨?_, ?_, ?_⟩
  · intro h
    simp [get_locations, h, mapOpt]
  · intro out h
    unfold get_locations at h
    cases hm : mapOpt processDoc (st.locations.take 1000) with
    | none => rw [hm] at h; exact absurd h (by simp)
    | some ls =>
      rw [hm] at h
      have hls : ls = out := by simpa using h
      subst hls
      have hlen := mapOpt_length _ _ _ hm
      rw [List.length_take] at hlen
      omega
  · intro out h i hi hl s t hs ht
    unfold get_locations at h
    cases hm : mapOpt processDoc (st.locations.take 1000) with
    | none => rw [hm] at h; exact absurd h (by simp)
    | some ls =>
      rw [hm] at h
      have hls : ls = out := by simpa using h
      subst hls
      exact processDoc_created_str _ _ _ _ hs ht (mapOpt_get _ _ _ hm i hi hl)

theorem c9_list_locations_witness :
    get_locations ⟨[], [], 0⟩ = Except.ok [] ∧
    (get_locations ⟨[docEx], [], 1⟩ = Except.ok [locEx] →
      ([locEx].get ⟨0, by decide⟩).created_at = dtEx) ∧
    get_locations ⟨[docEx], [], 1⟩ = Except.ok [locEx] := by
  refine ⟨(c9_list_locations ⟨[], [], 0⟩).1 rfl, ?_, rfl⟩
  intro h
  exact (c9_list_locations ⟨[docEx], [], 1⟩).2.2 [locEx] h 0 (by decide) (by decide)
    dtEx.isoformat dtEx rfl (fromisoformat_isoformat dtEx (by decide))

theorem Doc.get?_cons_ne (k k' : String) (v : Json) (d : Doc) (h : k ≠ k') :
    Doc.get? ((k, v) :: d) k' = Doc.get? d k' := by
  simp [Doc.get?, h]

/-- C10: no response of List, Get, Create or Update ever contains the store's
internal `_id` or any stored top-level field outside the Location schema: the
serialized body of every returned record has exactly the six schema keys,
response validation drops unknown top-level keys, and extra keys inside
`coordinates` are the only extras preserved. -/
theorem c10_schema_only_responses (st : DBState) :
    (∀ location_id L, get_location st location_id = Except.ok L →
      docKeys L.model_dump =
        ["id", "name", "description", "coordinates", "icon_url", "created_at"] ∧
      Doc.get? L.model_dump "_id" = none) ∧
    (∀ out, get_locations st = Except.ok out → ∀ L ∈ out,
      docKeys L.model_dump =
        ["id", "name", "description", "coordinates", "icon_url", "created_at"] ∧
      Doc.get? L.model_dump "_id" = none) ∧
    (∀ genId now body L st', postLocation genId now body st = (Except.ok L, st') →
      docKeys L.model_dump =
        ["id", "name", "description", "coordinates", "icon_url", "created_at"]) ∧
    (∀ location_id body L st',
      update_location st location_id body = (Except.ok L, st') →
      docKeys L.model_dump =
        ["id", "name", "description", "coordinates", "icon_url", "created_at"]) ∧
    (∀ d k v,
      k ∉ (["id", "name", "description", "coordinates", "icon_url", "created_at"] :
        List String) →
      Location.validate ((k, v) :: d) = Location.validate d) ∧
    (∀ d L m, Location.validate d = some L →
      Doc.get? d "coordinates" = some (Json.obj m) → L.coordinates = m) := by
  refine ⟨fun _ L _ => ⟨rfl, rfl⟩, fun _ _ L _ => ⟨rfl, rfl⟩, fun _ _ _ L _ _ => rfl,
    fun _ _ L _ _ => rfl, ?_, ?_⟩
  · intro d k v hk
    have h1 : k ≠ "id" := fun hc => hk (by rw [hc]; simp)
    have h2 : k ≠ "name" := fun hc => hk (by rw [hc]; simp)
    have h3 : k ≠ "description" := fun hc => hk (by rw [hc]; simp)
    have h4 : k ≠ "coordinates" := fun hc => hk (by rw [hc]; simp)
    have h5 : k ≠ "icon_url" := fun hc => hk (by rw [hc]; simp)
    have h6 : k ≠ "created_at" := fun hc => hk (by rw [hc]; simp)
    unfold Location.validate
    rw [Doc.get?_cons_ne _ _ _ _ h1, Doc.get?_cons_ne _ _ _ _ h2,
      Doc.get?_cons_ne _ _ _ _ h3, Doc.get?_cons_ne _ _ _ _ h4,
      Doc.get?_cons_ne _ _ _ _ h5, Doc.get?_cons_ne _ _ _ _ h6]
  · intro d L m hv hm
    have h := ((Location.validate_eq_some_iff _ _).mp hv).2.2.2.1
    rw [hm] at h
    exact (by simpa [expectObj] using h : m = L.coordinates).symm

theorem c10_schema_only_responses_witness :
    (docKeys locEx.model_dump =
      ["id", "name", "description", "coordinates", "icon_url", "created_at"] ∧
     Doc.get? locEx.model_dump "_id" = none) ∧
    Location.validate (("junk", Json.num 7) :: docEx.erase "_id") =
      Location.validate (docEx.erase "_id") ∧
    locEx.coordinates = [("x", Json.num 1), ("y", Json.num 0), ("z", Json.num 2)] :=
  ⟨(c10_schema_only_responses ⟨[docEx], [], 1⟩).1 "L1" locEx rfl,
   (c10_schema_only_responses ⟨[], [], 0⟩).2.2.2.2.1 (docEx.erase "_id") "junk"
     (Json.num 7) (by decide),
   (c10_schema_only_responses ⟨[], [], 0⟩).2.2.2.2.2 (docEx.erase "_id") locEx
     [("x", Json.num 1), ("y", Json.num 0), ("z", Json.num 2)] rfl rfl⟩

/-- C3 counterexample: a create payload with an empty-string `name` and valid
`coordinates` is accepted — it returns 201 with the record and persists it —
where the claim requires a ValidationError.  Pydantic's `name: str` places no
non-emptiness constraint. -/
theorem c3_empty_name_counterexample :
    postLocation "u-1" dtEx
      [("name", Json.str ""), ("coordinates", Json.obj [("x", Json.num 0)])]
      ⟨[], [], 0⟩ =
      (Except.ok ⟨"u-1", "", none, [("x", Json.num 0)], none, dtEx⟩,
       ⟨[[("id", Json.str "u-1"), ("name", Json.str ""),
          ("description", Json.null),
          ("coordinates", Json.obj [("x", Json.num 0)]), ("icon_url", Json.null),
          ("created_at", Json.str dtEx.isoformat), ("_id", Json.oid 0)]],
         [], 1⟩) := rfl

/-- C3 (amended): for every create payload whose `name` is absent or not a
string, or whose `coordinates` is absent or not a dict, Create fails with a
ValidationError (422) and no record is persisted — the store is returned
unchanged, so a subsequent List is unchanged too.  (An empty-string `name`,
however, is accepted: pydantic's `str` does not enforce non-emptiness.) -/
theorem c3_validation_amended (genId : String) (now : PyDatetime) (body : Doc)
    (st : DBState)
    (hbad : expectStr (body.get? "name") = none ∨
      expectObj (body.get? "coordinates") = none) :
    postLocation genId now body st = (Except.error HError.validation, st) ∧
    get_locations (postLocation genId now body st).2 = get_locations st ∧
    HError.statusCode HError.validation = 422 := by
  have hp : LocationCreate.parse body = none := by
    cases hpc : LocationCreate.parse body with
    | none => rfl
    | some lc =>
      exfalso
      have h := (LocationCreate.parseCreate_eq_some_iff _ _).mp hpc
      rcases hbad with hb | hb
      · rw [h.1] at hb; exact absurd hb (by simp)
      · rw [h.2.2.1] at hb; exact absurd hb (by simp)
  have hpost : postLocation genId now body st = (Except.error HError.validation, st) := by
    simp [postLocation, hp]
  exact ⟨hpost, by rw [hpost], rfl⟩

theorem c3_validation_amended_witness :
    postLocation "u-1" dtEx [("coordinates", Json.obj [])] ⟨[], [], 0⟩ =
      (Except.error HError.validation, ⟨[], [], 0⟩) ∧
    get_locations (postLocation "u-1" dtEx [("coordinates", Json.obj [])]
      ⟨[], [], 0⟩).2 = get_locations ⟨[], [], 0⟩ ∧
    HError.statusCode HError.validation = 422 :=
  c3_validation_amended "u-1" dtEx [("coordinates", Json.obj [])] ⟨[], [], 0⟩
    (Or.inl (by decide))

/-- C6: Create generates `id` and `created_at` server-side — the request
model never reads client-supplied values for those two fields — persists the
record with `created_at` serialized to its ISO-8601 string (plus the driver's
`_id`), and returns the full created record including the server-generated
fields. -/
theorem c6_server_generated_fields (genId : String) (now : PyDatetime) (body : Doc)
    (st : DBState) :
    (LocationCreate.parse (body.erase "id") = LocationCreate.parse body ∧
     LocationCreate.parse (body.erase "created_at") = LocationCreate.parse body) ∧
    (∀ lc, LocationCreate.parse body = some lc →
      postLocation genId now body st =
        (Except.ok ⟨genId, lc.name, lc.description, lc.coordinates, lc.icon_url, now⟩,
         { st with
            locations := st.locations ++
              [[("id", Json.str genId), ("name", Json.str lc.name),
                ("description", optJson lc.description),
                ("coordinates", Json.obj lc.coordinates),
                ("icon_url", optJson lc.icon_url),
                ("created_at", Json.str now.isoformat),
                ("_id", Json.oid st.nextOid)]],
            nextOid := st.nextOid + 1 })) ∧
    create_location_success_status = 201 := by
  refine ⟨⟨?_, ?_⟩, ?_, rfl⟩
  · unfold LocationCreate.parse
    rw [Doc.get?_erase_ne body "id" "name" (by decide),
      Doc.get?_erase_ne body "id" "description" (by decide),
      Doc.get?_erase_ne body "id" "coordinates" (by decide),
      Doc.get?_erase_ne body "id" "icon_url" (by decide)]
  · unfold LocationCreate.parse
    rw [Doc.get?_erase_ne body "created_at" "name" (by decide),
      Doc.get?_erase_ne body "created_at" "description" (by decide),
      Doc.get?_erase_ne body "created_at" "coordinates" (by decide),
      Doc.get?_erase_ne body "created_at" "icon_url" (by decide)]
  · intro lc hp
    simp [postLocation, hp, create_location]

theorem c6_server_generated_fields_witness :
    postLocation "u-1" dtEx
      [("id", Json.str "CLIENT"), ("created_at", Json.str "2001-01-01T00:00:00+00:00"),
       ("name", Json.str "Radiology"),
       ("coordinates", Json.obj [("x", Json.num 1)])] ⟨[], [], 5⟩ =
      (Except.ok ⟨"u-1", "Radiology", none, [("x", Json.num 1)], none, dtEx⟩,
       ⟨[[("id", Json.str "u-1"), ("name", Json.str "Radiology"),
          ("description", Json.null), ("coordinates", Json.obj [("x", Json.num 1)]),
          ("icon_url", Json.null), ("created_at", Json.str dtEx.isoformat),
          ("_id", Json.oid 5)]], [], 6⟩) :=
  (c6_server_generated_fields "u-1" dtEx
    [("id", Json.str "CLIENT"), ("created_at", Json.str "2001-01-01T00:00:00+00:00"),
     ("name", Json.str "Radiology"), ("coordinates", Json.obj [("x", Json.num 1)])]
    ⟨[], [], 5⟩).2.1 ⟨"Radiology", none, [("x", Json.num 1)], none⟩ (by decide)

theorem get_location_found (st : DBState) (location_id : String) (d : Doc)
    (L : Location) (hf : findOne st.locations "id" location_id = some d)
    (hp : processDoc d = some L) :
    get_location st location_id = Except.ok L := by
  unfold processDoc at hp
  cases hc : convert_created (d.erase "_id") with
  | none => rw [hc] at hp; exact absurd hp (by simp)
  | some d2 =>
    rw [hc] at hp
    simp only [] at hp
    have hne : (d.erase "_id").isEmpty = false := by
      by_cases hd : (d.erase "_id").isEmpty
      · exfalso
        rw [List.isEmpty_iff.mp hd] at hc
        have h0 : convert_created ([] : Doc) = some ([] : Doc) := rfl
        rw [h0] at hc
        have hd2 : d2 = ([] : Doc) := by simpa using hc.symm
        rw [hd2] at hp
        exact absurd hp (by simp [Location.validate, Doc.get?, expectStr, bind])
      · simpa using hd
    unfold get_location
    rw [hf]
    simp [hne, hc, hp]

/-- C1: creating a Location with a valid payload returns 201 with the full
record, and an immediate Get by the returned id — with no intervening writes
— returns a record equal to the created one in every client-supplied field
(name, description, coordinates including any extra keys, icon_url), with
`created_at` round-tripping through its stored ISO-8601 form back to the same
timestamp.  `genId` is the freshly drawn UUID, so it matches no stored id. -/
theorem c1_create_then_get (genId : String) (now : PyDatetime) (body : Doc)
    (lc : LocationCreate) (st : DBState)
    (hp : LocationCreate.parse body = some lc)
    (hfresh : ∀ d ∈ st.locations, d.getEqStr "id" genId = false)
    (hv : now.valid) :
    (postLocation genId now body st).1 =
      Except.ok ⟨genId, lc.name, lc.description, lc.coordinates, lc.icon_url, now⟩ ∧
    get_location (postLocation genId now body st).2 genId =
      Except.ok ⟨genId, lc.name, lc.description, lc.coordinates, lc.icon_url, now⟩ ∧
    create_location_success_status = 201 := by
  have hpost : postLocation genId now body st =
      (Except.ok ⟨genId, lc.name, lc.description, lc.coordinates, lc.icon_url, now⟩,
       { st with
          locations := st.locations ++
            [[("id", Json.str genId), ("name", Json.str lc.name),
              ("description", optJson lc.description),
              ("coordinates", Json.obj lc.coordinates),
              ("icon_url", optJson lc.icon_url),
              ("created_at", Json.str now.isoformat),
              ("_id", Json.oid st.nextOid)]],
          nextOid := st.nextOid + 1 }) := by
    simp [postLocation, hp, create_location]
  have hfo : findOne (st.locations ++
      [[("id", Json.str genId), ("name", Json.str lc.name),
        ("description", optJson lc.description),
        ("coordinates", Json.obj lc.coordinates),
        ("icon_url", optJson lc.icon_url),
        ("created_at", Json.str now.isoformat),
        ("_id", Json.oid st.nextOid)]]) "id" genId =
      some [("id", Json.str genId), ("name", Json.str lc.name),
        ("description", optJson lc.description),
        ("coordinates", Json.obj lc.coordinates),
        ("icon_url", optJson lc.icon_url),
        ("created_at", Json.str now.isoformat),
        ("_id", Json.oid st.nextOid)] := by
    rw [findOne_append_of_none _ _ _ _ hfresh]
    exact findOne_cons_self _ _ _ _ (by simp [Doc.getEqStr, Doc.get?])
  have hpd : processDoc
      [("id", Json.str genId), ("name", Json.str lc.name),
       ("description", optJson lc.description),
       ("coordinates", Json.obj lc.coordinates),
       ("icon_url", optJson lc.icon_url),
       ("created_at", Json.str now.isoformat),
       ("_id", Json.oid st.nextOid)] =
      some ⟨genId, lc.name, lc.description, lc.coordinates, lc.icon_url, now⟩ := by
    unfold processDoc
    have he : Doc.erase
        [("id", Json.str genId), ("name", Json.str lc.name),
         ("description", optJson lc.description),
         ("coordinates", Json.obj lc.coordinates),
         ("icon_url", optJson lc.icon_url),
         ("created_at", Json.str now.isoformat),
         ("_id", Json.oid st.nextOid)] "_id" =
        [("id", Json.str genId), ("name", Json.str lc.name),
         ("description", optJson lc.description),
         ("coordinates", Json.obj lc.coordinates),
         ("icon_url", optJson lc.icon_url),
         ("created_at", Json.str now.isoformat)] := rfl
    rw [he]
    have hc : convert_created
        [("id", Json.str genId), ("name", Json.str lc.name),
         ("description", optJson lc.description),
         ("coordinates", Json.obj lc.coordinates),
         ("icon_url", optJson lc.icon_url),
         ("created_at", Json.str now.isoformat)] =
        some [("id", Json.str genId), ("name", Json.str lc.name),
          ("description", optJson lc.description),
          ("coordinates", Json.obj lc.coordinates),
          ("icon_url", optJson lc.icon_url),
          ("created_at", Json.dt now)] := by
      unfold convert_created
      rw [show Doc.get?
          [("id", Json.str genId), ("name", Json.str lc.name),
           ("description", optJson lc.description),
           ("coordinates", Json.obj lc.coordinates),
           ("icon_url", optJson lc.icon_url),
           ("created_at", Json.str now.isoformat)] "created_at" =
          some (Json.str now.isoformat) from rfl]
      simp [fromisoformat_isoformat now hv]
      rfl
    rw [hc]
    simp only []
    apply (Location.validate_eq_some_iff _ _).mpr
    refine ⟨rfl, rfl, ?_, rfl, ?_, rfl⟩
    · cases lc.description <;> rfl
    · cases lc.icon_url <;> rfl
  refine ⟨by rw [hpost], ?_, rfl⟩
  rw [hpost]
  exact get_location_found _ genId _ _ hfo hpd

theorem c1_create_then_get_witness :
    (postLocation "u-1" dtEx
      [("name", Json.str "Radiology"), ("description", Json.str "scans"),
       ("coordinates", Json.obj [("x", Json.num 1), ("w", Json.num 9)])]
      ⟨[docEx], [], 1⟩).1 =
      Except.ok ⟨"u-1", "Radiology", some "scans",
        [("x", Json.num 1), ("w", Json.num 9)], none, dtEx⟩ ∧
    get_location (postLocation "u-1" dtEx
      [("name", Json.str "Radiology"), ("description", Json.str "scans"),
       ("coordinates", Json.obj [("x", Json.num 1), ("w", Json.num 9)])]
      ⟨[docEx], [], 1⟩).2 "u-1" =
      Except.ok ⟨"u-1", "Radiology", some "scans",
        [("x", Json.num 1), ("w", Json.num 9)], none, dtEx⟩ ∧
    create_location_success_status = 201 :=
  c1_create_then_get "u-1" dtEx
    [("name", Json.str "Radiology"), ("description", Json.str "scans"),
     ("coordinates", Json.obj [("x", Json.num 1), ("w", Json.num 9)])]
    ⟨"Radiology", some "scans", [("x", Json.num 1), ("w", Json.num 9)], none⟩
    ⟨[docEx], [], 1⟩ (by decide) (by decide) (by decide)

/-- C2: Update applies exactly the payload fields that are present and
non-null and leaves every other field (including `id`, `created_at` and the
internal `_id`) unchanged; a null field means "do not change" (no field can
be cleared to null); the empty payload is a successful no-op returning the
current record unchanged; other records and collections are untouched. -/
theorem c2_partial_update_frame (st : DBState) (location_id : String) (body : Doc)
    (u : LocationUpdate) (pre : List Doc) (d : Doc) (post : List Doc)
    (hparse : LocationUpdate.parse body = some u)
    (hsplit : st.locations = pre ++ d :: post)
    (hpre : ∀ d' ∈ pre, d'.getEqStr "id" location_id = false)
    (hd : d.getEqStr "id" location_id = true) :
    ((update_location st location_id body).2.locations =
      pre ++ (d.setMany u.updateData) :: post ∧
     (update_location st location_id body).2.admin_settings = st.admin_settings ∧
     (update_location st location_id body).2.nextOid = st.nextOid) ∧
    (Doc.get? (d.setMany u.updateData) "id" = Doc.get? d "id" ∧
     Doc.get? (d.setMany u.updateData) "created_at" = Doc.get? d "created_at" ∧
     Doc.get? (d.setMany u.updateData) "_id" = Doc.get? d "_id") ∧
    ((u.name = none →
        Doc.get? (d.setMany u.updateData) "name" = Doc.get? d "name") ∧
     (∀ s, u.name = some s →
        Doc.get? (d.setMany u.updateData) "name" = some (Json.str s)) ∧
     (u.description = none →
        Doc.get? (d.setMany u.updateData) "description" = Doc.get? d "description") ∧
     (∀ s, u.description = some s →
        Doc.get? (d.setMany u.updateData) "description" = some (Json.str s)) ∧
     (u.coordinates = none →
        Doc.get? (d.setMany u.updateData) "coordinates" = Doc.get? d "coordinates") ∧
     (∀ m, u.coordinates = some m →
        Doc.get? (d.setMany u.updateData) "coordinates" = some (Json.obj m)) ∧
     (u.icon_url = none →
        Doc.get? (d.setMany u.updateData) "icon_url" = Doc.get? d "icon_url") ∧
     (∀ s, u.icon_url = some s →
        Doc.get? (d.setMany u.updateData) "icon_url" = some (Json.str s))) ∧
    (u = ⟨none, none, none, none⟩ → (update_location st location_id body).2 = st) ∧
    (∀ L, processDoc (d.setMany u.updateData) = some L →
      (update_location st location_id body).1 = Except.ok L) := by
  obtain ⟨locs, adm, nx⟩ := st
  dsimp only at hsplit ⊢
  subst hsplit
  have hfo1 : findOne (pre ++ d :: post) "id" location_id = some d := by
    rw [findOne_append_of_none _ _ _ _ hpre]
    exact findOne_cons_self _ _ _ _ hd
  have hgd : Doc.get? d "id" = some (Json.str location_id) :=
    (Doc.getEqStr_true_iff _ _ _).mp hd
  have heB : (d.erase "_id").isEmpty = false := by
    have hx : Doc.get? (d.erase "_id") "id" = some (Json.str location_id) := by
      rw [Doc.get?_erase_ne d "_id" "id" (by decide)]
      exact hgd
    exact Doc.isEmpty_false_of_get? _ _ _ hx
  have hid' : (d.setMany u.updateData).getEqStr "id" location_id = true := by
    unfold Doc.getEqStr
    rw [setMany_updateData_other d u "id" (by decide) (by decide) (by decide) (by decide)]
    exact (Doc.getEqStr_true_iff _ _ _).mpr hgd
  have hmain : update_location ⟨pre ++ d :: post, adm, nx⟩ location_id body =
      ((match convert_created (Doc.erase (d.setMany u.updateData) "_id") with
        | none => Except.error (HError.internal "invalid isoformat string")
        | some d3 =>
          match Location.validate d3 with
          | some L => Except.ok L
          | none => Except.error (HError.internal "response validation failed")),
       ⟨pre ++ (d.setMany u.updateData) :: post, adm, nx⟩) := by
    unfold update_location
    rw [hparse]
    dsimp only
    rw [hfo1]
    simp only [Option.map_some', heB, Bool.false_eq_true, if_false]
    by_cases hue : u.updateData.isEmpty
    · have hud : u.updateData = [] := by simpa using hue
      rw [hue]
      simp only [if_true, ite_true]
      rw [hfo1]
      rw [hud, Doc.setMany_nil]
      simp only [Option.map_some']
      cases hcc : convert_created (d.erase "_id") with
      | none => simp [hcc]
      | some d3 =>
        simp only [hcc]
        cases hvv : Location.validate d3 with
        | none => simp [hvv]
        | some L => simp [hvv]
    · rw [show u.updateData.isEmpty = false by simpa using hue]
      simp only [Bool.false_eq_true, if_false, ite_false]
      rw [show updateOneSet (pre ++ d :: post) location_id u.updateData =
          pre ++ (d.setMany u.updateData) :: post from
          updateOneSet_split pre d post _ _ hpre hd]
      rw [show findOne (pre ++ (d.setMany u.updateData) :: post) "id" location_id =
          some (d.setMany u.updateData) from by
          rw [findOne_append_of_none _ _ _ _ hpre]
          exact findOne_cons_self _ _ _ _ hid']
      simp only [Option.map_some']
      cases hcc : convert_created ((d.setMany u.updateData).erase "_id") with
      | none => simp [hcc]
      | some d3 =>
        simp only [hcc]
        cases hvv : Location.validate d3 with
        | none => simp [hvv]
        | some L => simp [hvv]
  refine ⟨?_, ?_, ?_, ?_, ?_⟩
  · rw [hmain]
    exact ⟨rfl, rfl, rfl⟩
  · exact ⟨setMany_updateData_other d u "id" (by decide) (by decide) (by decide) (by decide),
      setMany_updateData_other d u "created_at" (by decide) (by decide) (by decide) (by decide),
      setMany_updateData_other d u "_id" (by decide) (by decide) (by decide) (by decide)⟩
  · refine ⟨?_, ?_, ?_, ?_, ?_, ?_, ?_, ?_⟩
    · intro h; rw [setMany_updateData_name, h]
    · intro s h; rw [setMany_updateData_name, h]
    · intro h; rw [setMany_updateData_desc, h]
    · intro s h; rw [setMany_updateData_desc, h]
    · intro h; rw [setMany_updateData_coords, h]
    · intro m h; rw [setMany_updateData_coords, h]
    · intro h; rw [setMany_updateData_icon, h]
    · intro s h; rw [setMany_updateData_icon, h]
  · intro hu0
    rw [hmain, hu0]
    rfl
  · intro L hL
    rw [hmain]
    unfold processDoc at hL
    cases hc : convert_created (Doc.erase (d.setMany u.updateData) "_id") with
    | none => rw [hc] at hL; exact absurd hL (by simp)
    | some d3 =>
      rw [hc] at hL
      simp only [] at hL
      dsimp only
      rw [hL]

theorem c2_partial_update_frame_witness :
    ((update_location ⟨[docEx], [], 1⟩ "L1"
        [("description", Json.str "newdesc")]).2.locations =
      [] ++ (Doc.setMany docEx
        (LocationUpdate.updateData ⟨none, some "newdesc", none, none⟩)) :: [] ∧
     (update_location ⟨[docEx], [], 1⟩ "L1"
        [("description", Json.str "newdesc")]).2.admin_settings = [] ∧
     (update_location ⟨[docEx], [], 1⟩ "L1"
        [("description", Json.str "newdesc")]).2.nextOid = 1) ∧
    (update_location ⟨[docEx], [], 1⟩ "L1" ([] : Doc)).2 = ⟨[docEx], [], 1⟩ :=
  ⟨(c2_partial_update_frame ⟨[docEx], [], 1⟩ "L1"
      [("description", Json.str "newdesc")] ⟨none, some "newdesc", none, none⟩
      [] docEx [] (by decide) rfl (by decide) (by decide)).1,
   (c2_partial_update_frame ⟨[docEx], [], 1⟩ "L1" ([] : Doc)
      ⟨none, none, none, none⟩ [] docEx [] (by decide) rfl (by decide)
      (by decide)).2.2.2.1 rfl⟩
